import Mathlib

/-!
Verification of the `creditos-app` credit-ledger application (`src/app.py`).

The file shallowly embeds the data model and the request handlers of the
application: PostgreSQL `NUMERIC(10,2)` amounts are embedded as integer cents
(`ℤ`); SQL aggregate queries become folds over row lists; Flask handlers become
pure functions from a request model and a database snapshot to a response value;
Python's binary64 `float(...)` conversion is embedded as exact round-to-nearest-
even rounding of the rational input (normal range only: the tiny monetary
magnitudes used here never overflow or go subnormal); `passlib`'s bcrypt is
embedded abstractly as a primitive that commits to the first 72 bytes of the
UTF-8 encoded secret together with a salt, and whose verifier fails with an
error on any stored value that is not a well-formed bcrypt hash.
-/

namespace App

/-! ## Generic numeric utilities -/

/-- `2 ^ k` in `ℚ` for an integer exponent `k`, computed through `ℕ` powers. -/
def pow2 (k : ℤ) : ℚ :=
  if 0 ≤ k then ((2 ^ k.toNat : ℕ) : ℚ) else (((2 ^ (-k).toNat : ℕ) : ℚ))⁻¹

/-- Round `p / q` (with `q > 0`) to the nearest natural, ties to even. -/
def roundHE (p q : ℕ) : ℕ :=
  let fl := p / q
  let r := p % q
  if 2 * r < q then fl
  else if q < 2 * r then fl + 1
  else if fl % 2 = 0 then fl else fl + 1

/-- Fuel-driven binary logarithm on `ℕ` (kernel-reducible). -/
def log2fuel : ℕ → ℕ → ℕ
  | 0, _ => 0
  | fuel + 1, n => if n ≤ 1 then 0 else log2fuel fuel (n / 2) + 1

/-- `⌊log₂ n⌋` for `n ≥ 1` (and `0` for `n = 0`). -/
def natLog2 (n : ℕ) : ℕ := log2fuel n n

/-- `⌊log₂ (n / d)⌋` for naturals `n, d ≥ 1`. -/
def floorLog2ND (n d : ℕ) : ℤ :=
  let a : ℕ := natLog2 n
  let b : ℕ := natLog2 d
  if b ≤ a then (if 2 ^ (a - b) * d ≤ n then (a : ℤ) - b else (a : ℤ) - b - 1)
  else (if d ≤ 2 ^ (b - a) * n then (a : ℤ) - b else (a : ℤ) - b - 1)

/-- Mantissa of the binary64 value nearest to `n / d` (`n, d ≥ 1`, round to
nearest, ties to even, normal range): `n / d` scaled into `[2^52, 2^53)` and
rounded, computed entirely on naturals. -/
def floatMant (n d : ℕ) : ℕ :=
  if 0 ≤ floorLog2ND n d - 52 then roundHE n (d * 2 ^ (floorLog2ND n d - 52).toNat)
  else roundHE (n * 2 ^ (-(floorLog2ND n d - 52)).toNat) d

/-- The binary64 value nearest to the positive rational `n / d`:
mantissa times `2 ^ (⌊log₂ (n/d)⌋ - 52)`. -/
def floatVal (n d : ℕ) : ℚ := ((floatMant n d : ℕ) : ℚ) * pow2 (floorLog2ND n d - 52)

/-- Python `float(x)` applied to a `NUMERIC(10,2)` amount of `c` cents:
the binary64 value nearest to the exact rational `c / 100`. -/
def float_of_cents (c : ℤ) : ℚ :=
  if c = 0 then 0 else if c < 0 then -(floatVal c.natAbs 100) else floatVal c.natAbs 100

/-! ## Generic list/string utilities -/

/-- Insert `x` into `l` before the first element `y` with `le x y = true`. -/
def insertBy {α : Type} (le : α → α → Bool) (x : α) : List α → List α
  | [] => [x]
  | y :: ys => if le x y then x :: y :: ys else y :: insertBy le x ys

/-- Insertion sort by a boolean comparison, used to embed SQL `ORDER BY`. -/
def sortBy {α : Type} (le : α → α → Bool) (l : List α) : List α :=
  l.foldr (insertBy le) []

/-- Lexicographic comparison of character lists by code point. -/
def charListLe : List Char → List Char → Bool
  | [], _ => true
  | _ :: _, [] => false
  | a :: as, b :: bs =>
    if a.toNat < b.toNat then true
    else if b.toNat < a.toNat then false
    else charListLe as bs

/-- String comparison used to embed SQL `ORDER BY` on text columns. -/
def strLe (a b : String) : Bool := charListLe a.data b.data

/-- Split a character list on a separator; `[[]]` for the empty input,
mirroring Python `str.split(sep)`. -/
def splitOnChar (sep : Char) (l : List Char) : List (List Char) :=
  l.foldr
    (fun c acc =>
      if c = sep then [] :: acc
      else
        match acc with
        | [] => [[c]]
        | g :: gs => (c :: g) :: gs)
    [[]]

/-- The characters removed by Python `str.strip()` (ASCII whitespace). -/
def pyWS : List Char := [' ', '\t', '\n', '\r', '\x0b', '\x0c']

/-- Python `str.strip()` on a character list. -/
def pyStripChars (cs : List Char) : List Char :=
  ((cs.dropWhile (fun c => pyWS.contains c)).reverse.dropWhile
    (fun c => pyWS.contains c)).reverse

/-- Python `str.strip()`. -/
def pyStrip (s : String) : String := ⟨pyStripChars s.data⟩

/-- Digits of a natural number (fuel-driven, kernel-reducible). -/
def natDigitsAux : ℕ → ℕ → List Char
  | 0, _ => []
  | fuel + 1, n => if n = 0 then [] else natDigitsAux fuel (n / 10) ++ [Char.ofNat (48 + n % 10)]

/-- Decimal rendering of a natural number. -/
def natToStr (n : ℕ) : String := if n = 0 then "0" else ⟨natDigitsAux (n + 1) n⟩

/-- Zero-pad to two digits, as `strftime`/`str(date)` do for months and days. -/
def pad2 (n : ℕ) : String := if n < 10 then "0" ++ natToStr n else natToStr n

/-- Zero-pad to four digits, as `strftime`/`str(date)` do for years. -/
def pad4 (n : ℕ) : String :=
  if n < 10 then "000" ++ natToStr n
  else if n < 100 then "00" ++ natToStr n
  else if n < 1000 then "0" ++ natToStr n
  else natToStr n

/-! ## Data model

`movimientos(id, usuario, fecha, producto, tipo, monto NUMERIC(10,2))` and
`usuarios(id, username, password_hash, role)`.  A `NUMERIC(10,2)` amount is an
exact multiple of one cent, embedded as its integer number of cents. -/

/-- A calendar date as produced by `datetime.strptime(...).date()`. -/
structure PyDate where
  y : ℕ
  m : ℕ
  d : ℕ
deriving DecidableEq

/-- Sort key embedding SQL `DATE` ordering. -/
def dateKey (d : PyDate) : ℕ := d.y * 10000 + d.m * 100 + d.d

/-- `str(date)` / `date.strftime("%Y-%m-%d")`: ISO rendering. -/
def dateFmt (d : PyDate) : String := pad4 d.y ++ "-" ++ pad2 d.m ++ "-" ++ pad2 d.d

/-- A row of the `movimientos` table; `monto` is the amount in cents. -/
structure MovRow where
  id : ℕ
  usuario : String
  fecha : PyDate
  producto : String
  tipo : String
  monto : ℤ
deriving DecidableEq

/-! ## Balance computation (`registro_movimientos`, lines 299-318)

The SQL `SUM(CASE WHEN tipo = 'Abono' THEN monto WHEN tipo = 'Compra' THEN
-monto ELSE 0 END)` signs each amount: payments (`Abono`) positive, purchases
(`Compra`) negative. -/

/-- The signed amount contributed by one movement (the SQL `CASE` expression). -/
def signedCents (m : MovRow) : ℤ :=
  if m.tipo = "Abono" then m.monto
  else if m.tipo = "Compra" then -m.monto
  else 0

/-- The SQL `SUM` aggregate over signed amounts. -/
def saldoSumCents (movs : List MovRow) : ℤ :=
  movs.foldl (fun acc m => acc + signedCents m) 0

/-- The exact rational value of the summed balance (cents over 100). -/
def saldoQ (movs : List MovRow) : ℚ := ((saldoSumCents movs : ℤ) : ℚ) / 100

/-- Running-balance sequence.  Modelled from the spec: the code only computes
the final sum via SQL; §4.1 of the spec defines the step-by-step running
balance, which we instantiate with the polarity the code's `CASE` uses. -/
def runningCentsAux (acc : ℤ) : List MovRow → List ℤ
  | [] => []
  | m :: t => (acc + signedCents m) :: runningCentsAux (acc + signedCents m) t

/-- Running balances (in cents) of an ordered movement list, starting from 0. -/
def runningCents (movs : List MovRow) : List ℤ := runningCentsAux 0 movs

/-- Exact rational value of a cent amount. -/
def centsToQ (c : ℤ) : ℚ := (c : ℚ) / 100

/-- The spec's worked example: purchase 100.00 on 2024-01-01, payment 40.00 on
2024-01-05, purchase 25.00 on 2024-01-10, for one customer. -/
def exampleMovimientos : List MovRow :=
  [⟨1, "cliente1", ⟨2024, 1, 1⟩, "p1", "Compra", 10000⟩,
   ⟨2, "cliente1", ⟨2024, 1, 5⟩, "p2", "Abono", 4000⟩,
   ⟨3, "cliente1", ⟨2024, 1, 10⟩, "p3", "Compra", 2500⟩]

/-- `saldo_actual` of `registro_movimientos`: the user's summed balance,
converted by `float(row["saldo"] or 0)` to a binary64 value. -/
def saldo_actual (username : String) (db : List MovRow) : ℚ :=
  float_of_cents (saldoSumCents (db.filter (fun m => m.usuario == username)))

/-! ## Passwords (`truncate_password`, `hash_password`, `verify_password`, lines 59-76) -/

/-- UTF-8 encoding of one Unicode scalar value, as Python `str.encode()`
produces it. -/
def utf8EncodeChar (c : Char) : List ℕ :=
  let n := c.toNat
  if n < 128 then [n]
  else if n < 2048 then [192 + n / 64, 128 + n % 64]
  else if n < 65536 then [224 + n / 4096, 128 + n / 64 % 64, 128 + n % 64]
  else [240 + n / 262144, 128 + n / 4096 % 64, 128 + n / 64 % 64, 128 + n % 64]

/-- UTF-8 byte sequence of a string. -/
def utf8Encode (s : String) : List ℕ := (s.data.map utf8EncodeChar).flatten

/-- `truncate_password` (lines 59-63): `password[:72]`, with `None` mapped to
`""`.  Python slicing cuts after 72 *code points* (characters), not bytes. -/
def truncate_password (password : Option String) : String :=
  match password with
  | none => ""
  | some s => ⟨s.data.take 72⟩

/-- Modelled from the spec: the byte-length-based truncation rule that claim C4
and spec §4.2 describe (cut the UTF-8 encoding at bcrypt's 72-byte maximum).
It exists only to be compared against the source's `truncate_password`. -/
def truncate72Bytes (password : Option String) : List ℕ :=
  (utf8Encode (password.getD "")).take 72

/-- bcrypt's own silent truncation of its input to 72 bytes (passlib default). -/
def bcryptTruncate (bs : List ℕ) : List ℕ := bs.take 72

/-- Abstract bcrypt digest: the salt together with the committed (internally
truncated) input bytes.  The one-way function is modelled as injective. -/
structure BcryptDigest where
  salt : ℕ
  key : List ℕ
deriving DecidableEq

/-- A value of the `password_hash` column: either a well-formed bcrypt hash or
any other string (malformed or empty). -/
inductive StoredHash
  | bc (d : BcryptDigest)
  | raw (s : String)
deriving DecidableEq

/-- `passlib.hash.bcrypt.hash`: commits to the first 72 bytes of the input. -/
def bcrypt_hash (secret : List ℕ) (salt : ℕ) : StoredHash :=
  .bc ⟨salt, bcryptTruncate secret⟩

/-- `passlib.hash.bcrypt.verify`: raises (modelled as `Except.error`) on a
stored value that is not a well-formed bcrypt hash, otherwise compares the
committed bytes against the presented (truncated) secret. -/
def bcrypt_verify (secret : List ℕ) (h : StoredHash) : Except Unit Bool :=
  match h with
  | .bc d => .ok (bcryptTruncate secret == d.key)
  | .raw _ => .error ()

/-- `hash_password` (lines 66-67); the `salt` argument stands for the salt
bcrypt draws at random. -/
def hash_password (plain_password : Option String) (salt : ℕ) : StoredHash :=
  bcrypt_hash (utf8Encode (truncate_password plain_password)) salt

/-- `verify_password` (lines 70-76): `try: return bcrypt.verify(...)` with a
catch-all `except` returning `False`. -/
def verify_password (plain_password : Option String) (password_hash : StoredHash) : Bool :=
  match bcrypt_verify (utf8Encode (truncate_password plain_password)) password_hash with
  | .ok b => b
  | .error _ => false

/-- The byte sequence bcrypt effectively compares for a presented secret:
`truncate_password`, then UTF-8 encoding, then bcrypt's 72-byte cut. -/
def bcryptInput (p : Option String) : List ℕ :=
  bcryptTruncate (utf8Encode (truncate_password p))

/-- 73 copies of `'é'` (two UTF-8 bytes each): 73 code points, 146 bytes. -/
def acutes73 : String := ⟨List.replicate 73 'é'⟩

/-! ## Users and database snapshot -/

/-- A row of the `usuarios` table. -/
structure UserRow where
  id : ℕ
  username : String
  password_hash : StoredHash
  role : String
deriving DecidableEq

/-- `Usuario.is_admin` (line 92): `self.role == "admin"`. -/
def is_admin (u : UserRow) : Bool := u.role == "admin"

/-- A snapshot of the two tables. -/
structure Db where
  usuarios : List UserRow
  movimientos : List MovRow
deriving DecidableEq

/-- `Usuario.get_by_username` (lines 116-125): the row with the given
username (unique column). -/
def get_by_username (db : Db) (username : String) : Option UserRow :=
  db.usuarios.find? (fun r => r.username == username)

/-- `Usuario.check_password` (lines 144-151). -/
def check_password (u : UserRow) (password : String) : Bool :=
  verify_password (some password) u.password_hash

/-! ## Form input parsing (`registro_movimientos` POST, lines 245-286) -/

def isDigitChar (c : Char) : Bool := '0' ≤ c && c ≤ '9'

def digitsToNat (l : List Char) : ℕ := l.foldl (fun a c => a * 10 + (c.toNat - 48)) 0

def isLeapYear (y : ℕ) : Bool := (y % 4 == 0) && (y % 100 != 0 || y % 400 == 0)

def daysInMonth (y m : ℕ) : ℕ :=
  if m == 2 then (if isLeapYear y then 29 else 28)
  else if m == 4 || m == 6 || m == 9 || m == 11 then 30
  else 31

/-- Digit-group validation shared by both `strptime` formats: a 4-digit year
(`%Y`), 1-2 digit month (`%m`) and day (`%d`), and a real calendar date
(`datetime.date` raises `ValueError` otherwise, e.g. on Feb 30). -/
def parseYMD (ys ms ds : List Char) : Option PyDate :=
  if (ys.length == 4) && ys.all isDigitChar
      && (ms.length == 1 || ms.length == 2) && ms.all isDigitChar
      && (ds.length == 1 || ds.length == 2) && ds.all isDigitChar then
    let y := digitsToNat ys
    let m := digitsToNat ms
    let d := digitsToNat ds
    if 1 ≤ y ∧ 1 ≤ m ∧ m ≤ 12 ∧ 1 ≤ d ∧ d ≤ daysInMonth y m then some ⟨y, m, d⟩
    else none
  else none

/-- `datetime.strptime(s, "%Y-%m-%d").date()` as a total parser. -/
def strptime_Ymd (s : String) : Option PyDate :=
  match splitOnChar '-' s.data with
  | [ys, ms, ds] => parseYMD ys ms ds
  | _ => none

/-- `datetime.strptime(s, "%d/%m/%Y").date()` as a total parser. -/
def strptime_dmY (s : String) : Option PyDate :=
  match splitOnChar '/' s.data with
  | [ds, ms, ys] => parseYMD ys ms ds
  | _ => none

/-- The mantissa forms Python `float(...)` accepts: `digits`, `digits.`,
`.digits`, `digits.digits`. -/
def parseMantissa (cs : List Char) : Option ℚ :=
  match splitOnChar '.' cs with
  | [ip] => if !ip.isEmpty && ip.all isDigitChar then some ((digitsToNat ip : ℕ) : ℚ) else none
  | [ip, fp] =>
    if (!ip.isEmpty || !fp.isEmpty) && ip.all isDigitChar && fp.all isDigitChar then
      some (((digitsToNat ip : ℕ) : ℚ) + ((digitsToNat fp : ℕ) : ℚ) / ((10 ^ fp.length : ℕ) : ℚ))
    else none
  | _ => none

def parseExp (cs : List Char) : Option ℤ :=
  match cs with
  | '+' :: rest => if !rest.isEmpty && rest.all isDigitChar then some ((digitsToNat rest : ℕ) : ℤ) else none
  | '-' :: rest => if !rest.isEmpty && rest.all isDigitChar then some (-((digitsToNat rest : ℕ) : ℤ)) else none
  | _ => if !cs.isEmpty && cs.all isDigitChar then some ((digitsToNat cs : ℕ) : ℤ) else none

/-- `10 ^ k` in `ℚ` for an integer exponent. -/
def pow10 (k : ℤ) : ℚ :=
  if 0 ≤ k then ((10 ^ k.toNat : ℕ) : ℚ) else (((10 ^ (-k).toNat : ℕ) : ℚ))⁻¹

/-- The unsigned part of a Python float literal: a mantissa with an optional
`e`/`E` exponent. -/
def parseUnsignedFloat (cs : List Char) : Option ℚ :=
  match splitOnChar 'e' (cs.map Char.toLower) with
  | [mant] => parseMantissa mant
  | [mant, ex] =>
    match parseMantissa mant, parseExp ex with
    | some m, some e => some (m * pow10 e)
    | _, _ => none
  | _ => none

/-- Python `float(s)` on finite decimal literals (optional sign, digits,
optional point and exponent, surrounding whitespace), with the parsed value
kept exact.  The special forms `inf`/`nan`, digit-group underscores and the
binary64 range limits of huge exponents are outside the model; the handler
below only inspects parse success and the sign of the value. -/
def pyFloatParse (s : String) : Option ℚ :=
  match pyStripChars s.data with
  | '+' :: rest => parseUnsignedFloat rest
  | '-' :: rest => (parseUnsignedFloat rest).map Neg.neg
  | cs => parseUnsignedFloat cs

/-- `request.form` for the movements POST: absent fields are `None`. -/
structure FormData where
  fecha : Option String
  producto : Option String
  tipo : Option String
  monto : Option String

/-- Outcome of the POST branch of `registro_movimientos`: an uncaught Python
exception (an HTTP 500), a flash-and-redirect, or a stored movement. -/
inductive PostResult
  | serverError (exc : String)
  | flashRedirect (msg : String)
  | saved (usuario : String) (fecha : PyDate) (producto : String) (tipo : String) (monto : ℚ)

/-- `registro_movimientos` POST branch (lines 245-286).  `strptime` is tried
with `%Y-%m-%d` and then `%d/%m/%Y`, each `ValueError` caught; but when the
`fecha` field is absent, `request.form.get("fecha")` is `None` and
`strptime(None, "%Y-%m-%d")` raises `TypeError`, which no `except` catches. -/
def registro_post (username : String) (f : FormData) : PostResult :=
  let producto := pyStrip (f.producto.getD "")
  let tipo := f.tipo.getD "Compra"
  let monto_str := String.mk ((f.monto.getD "0").data.map (fun c => if c = ',' then '.' else c))
  match f.fecha with
  | none => .serverError "TypeError"
  | some fecha_str =>
    match (strptime_Ymd fecha_str).orElse (fun _ => strptime_dmY fecha_str) with
    | none => .flashRedirect "Fecha inválida."
    | some fecha =>
      match pyFloatParse monto_str with
      | none => .flashRedirect "Monto inválido."
      | some monto =>
        if monto ≤ 0 then .flashRedirect "El monto debe ser mayor a cero."
        else if ¬(tipo = "Compra" ∨ tipo = "Abono") then .flashRedirect "Tipo inválido."
        else .saved username fecha producto tipo monto

/-! ## Login (`login` POST branch, lines 210-223) -/

inductive LoginResult
  | redirectTo (flashMsg target : String)
  | loginPage (error : Option String) (flashMsg : Option String)
deriving DecidableEq

/-- The POST branch of `login`. -/
def login_post (db : Db) (usernameField passwordField : String) : LoginResult :=
  let username := pyStrip usernameField
  let password := passwordField
  match get_by_username db username with
  | some user =>
    if check_password user password then
      .redirectTo "Sesión iniciada correctamente." "registro_movimientos"
    else
      .loginPage (some "Usuario o contraseña incorrectos.")
        (some "Usuario o contraseña incorrectos.")
  | none =>
    .loginPage (some "Usuario o contraseña incorrectos.")
      (some "Usuario o contraseña incorrectos.")

/-- The truth value of `user and user.check_password(password)` (line 215). -/
def authOk (db : Db) (usernameField passwordField : String) : Bool :=
  match get_by_username db (pyStrip usernameField) with
  | some user => check_password user passwordField
  | none => false

/-- Database for the login witness: one user `ana`. -/
def dbLogin : Db := ⟨[⟨1, "ana", hash_password (some "clave") 3, "user"⟩], []⟩

/-! ## Admin-only routes (lines 390-418, 558-573, 576-603, 610-662) -/

/-- A route response: a redirect with a flash message, or a data page. -/
inductive Resp (α : Type)
  | redirectFlash (msg route : String)
  | page (data : α)
deriving DecidableEq

/-- `GROUP BY usuario ORDER BY usuario`: distinct usernames, sorted. -/
def distinctSortedUsuarios (movs : List MovRow) : List String :=
  sortBy strLe ((movs.map (fun m => m.usuario)).eraseDups)

/-- The `saldos` query (lines 400-415): per-user signed sums. -/
def saldosPorUsuario (movs : List MovRow) : List (String × ℤ) :=
  (distinctSortedUsuarios movs).map
    (fun u => (u, saldoSumCents (movs.filter (fun m => m.usuario == u))))

/-- `saldos_usuarios` (lines 390-418). -/
def saldos_usuarios (u : UserRow) (db : Db) : Resp (List (String × ℤ)) :=
  if is_admin u then .page (saldosPorUsuario db.movimientos)
  else .redirectFlash "No tienes permisos para ver esta sección." "registro_movimientos"

/-- The `usuarios` listing query (lines 568-570). -/
def usuariosSorted (us : List UserRow) : List (ℕ × String × String) :=
  (sortBy (fun a b => strLe a.username b.username) us).map
    (fun u => (u.id, u.username, u.role))

/-- `lista_usuarios` (lines 558-573). -/
def lista_usuarios (u : UserRow) (db : Db) : Resp (List (ℕ × String × String)) :=
  if is_admin u then .page (usuariosSorted db.usuarios)
  else .redirectFlash "No tienes permisos para ver esta sección." "registro_movimientos"

/-- The GET branch of `nuevo_usuario` (lines 576-581, 603). -/
def nuevo_usuario_get (u : UserRow) : Resp Unit :=
  if is_admin u then .page ()
  else .redirectFlash "No tienes permisos para crear usuarios." "registro_movimientos"

/-- Binary64 rounding of an arbitrary rational (normal range), for the
dashboard's float subtraction, which is itself correctly rounded. -/
def floatRound (q : ℚ) : ℚ :=
  if q = 0 then 0
  else if q < 0 then -(floatVal q.num.natAbs q.den)
  else floatVal q.num.natAbs q.den

def comprasCents (movs : List MovRow) : ℤ :=
  (movs.filter (fun m => m.tipo == "Compra")).foldl (fun a m => a + m.monto) 0

def abonosCents (movs : List MovRow) : ℤ :=
  (movs.filter (fun m => m.tipo == "Abono")).foldl (fun a m => a + m.monto) 0

/-- The dashboard aggregates (lines 617-660). -/
structure DashData where
  total_usuarios : ℕ
  total_movs : ℕ
  total_compras : ℚ
  total_abonos : ℚ
  saldo_global : ℚ
  saldos_labels : List String
  saldos_values : List ℚ
deriving DecidableEq

def dashData (db : Db) : DashData :=
  { total_usuarios := db.usuarios.length
    total_movs := db.movimientos.length
    total_compras := float_of_cents (comprasCents db.movimientos)
    total_abonos := float_of_cents (abonosCents db.movimientos)
    saldo_global :=
      floatRound (float_of_cents (abonosCents db.movimientos) -
        float_of_cents (comprasCents db.movimientos))
    saldos_labels := (saldosPorUsuario db.movimientos).map Prod.fst
    saldos_values := (saldosPorUsuario db.movimientos).map (fun p => float_of_cents p.2) }

/-- `dashboard` (lines 610-662). -/
def dashboard (u : UserRow) (db : Db) : Resp DashData :=
  if is_admin u then .page (dashData db)
  else .redirectFlash "No tienes permisos para ver el dashboard." "registro_movimientos"

/-- A non-admin user, for the access-control witnesses. -/
def userMaria : UserRow := ⟨2, "maria", StoredHash.raw "", "user"⟩

/-- Demo snapshot: one non-admin user and the worked-example movements. -/
def dbDemo : Db := ⟨[userMaria], exampleMovimientos⟩

/-! ## Report fetching and rendering
(`reporte_pdf` lines 425-493, `reporte_excel` lines 500-551) -/

/-- Strict lexicographic comparison of character lists by code point. -/
def charListLt : List Char → List Char → Bool
  | [], [] => false
  | [], _ :: _ => true
  | _ :: _, [] => false
  | a :: as, b :: bs =>
    if a.toNat < b.toNat then true
    else if b.toNat < a.toNat then false
    else charListLt as bs

def strLt (a b : String) : Bool := charListLt a.data b.data

/-- `ORDER BY fecha ASC, id ASC`. -/
def movLeFechaId (a b : MovRow) : Bool :=
  if dateKey a.fecha < dateKey b.fecha then true
  else if dateKey b.fecha < dateKey a.fecha then false
  else decide (a.id ≤ b.id)

/-- `ORDER BY usuario ASC, fecha ASC, id ASC` (the admin no-filter query). -/
def movLeUserFechaId (a b : MovRow) : Bool :=
  if strLt a.usuario b.usuario then true
  else if strLt b.usuario a.usuario then false
  else movLeFechaId a b

/-- The query shared by both report routes: non-admins are forced onto their
own username (lines 431-432, 505-506); the SQL filters when `usuario` is
truthy (`None` and `""` are both falsy in `if usuario:`), otherwise it lists
every user's movements. -/
def fetchReport (u : UserRow) (param : Option String) (db : Db) : List MovRow :=
  let usuario : Option String := if is_admin u then param else some u.username
  match usuario with
  | some s =>
    if s = "" then sortBy movLeUserFechaId db.movimientos
    else sortBy movLeFechaId (db.movimientos.filter (fun m => m.usuario == s))
  | none => sortBy movLeUserFechaId db.movimientos

/-- The CSV header row (line 533). -/
def csvHeader : List String := ["Usuario", "Fecha", "Producto", "Tipo", "Monto"]

/-- `str(...)` of a `NUMERIC(10,2)` amount of `c` cents (scale-2 decimal). -/
def montoStr (c : ℤ) : String :=
  (if c < 0 then "-" else "") ++ natToStr (c.natAbs / 100) ++ "." ++ pad2 (c.natAbs % 100)

/-- One `writer.writerow([...])` call of the export loop (lines 534-543). -/
def csvRow (m : MovRow) : List String :=
  [m.usuario, dateFmt m.fecha, m.producto, m.tipo, montoStr m.monto]

/-- The full sequence of `writerow` calls: header, then the loop. -/
def csvRows (movs : List MovRow) : List (List String) :=
  movs.foldl (fun acc m => acc ++ [csvRow m]) [csvHeader]

/-- `reporte_excel` (lines 500-551): the rows of the returned CSV. -/
def reporte_excel (u : UserRow) (param : Option String) (db : Db) : List (List String) :=
  csvRows (fetchReport u param db)

/-- The f-string line drawn for one movement (lines 469-475). -/
def pdfLinea (m : MovRow) : String :=
  "Usuario: " ++ m.usuario ++ " | Fecha: " ++ dateFmt m.fecha ++ " | Prod: " ++
    m.producto ++ " | Tipo: " ++ m.tipo ++ " | Monto: " ++ montoStr m.monto

/-- The PDF title (line 462). -/
def pdfTitle : String := "Reporte de Movimientos"

/-- One iteration of the drawing loop (lines 468-481): draw the line, move the
cursor down 15 points, and start a new page (cursor back to the top of a
US-letter page, height 792) when the cursor passes the bottom margin.  Page
breaks do not change which text is drawn. -/
def pdfStep (st : ℤ × List String) (m : MovRow) : ℤ × List String :=
  let lines := st.2 ++ [pdfLinea m]
  let y := st.1 - 15
  (if y < 50 then 792 - 50 else y, lines)

/-- The sequence of text lines drawn into the PDF: the title at `y = 742`,
then the loop from `y = 712`. -/
def pdfLines (movs : List MovRow) : List String :=
  pdfTitle :: (movs.foldl pdfStep (712, [])).2

/-- `reporte_pdf` (lines 425-493): the text lines of the returned PDF. -/
def reporte_pdf (u : UserRow) (param : Option String) (db : Db) : List String :=
  pdfLines (fetchReport u param db)

/-- An admin user, for the export counterexample. -/
def userAdmin : UserRow := ⟨1, "admin", StoredHash.raw "", "admin"⟩

/-- A single payment of 0.10: the exact balance is the non-dyadic rational
`1/10`, which no binary64 value equals. -/
def movsDime : List MovRow := [⟨1, "cliente1", ⟨2024, 1, 2⟩, "dulce", "Abono", 10⟩]

/-! ## Theorems -/

theorem runningCentsAux_getLastD (movs : List MovRow) :
    ∀ acc : ℤ, (runningCentsAux acc movs).getLastD acc =
      movs.foldl (fun a m => a + signedCents m) acc := by
  induction movs with
  | nil => intro acc; rfl
  | cons m t ih =>
    intro acc
    show ((acc + signedCents m) :: runningCentsAux (acc + signedCents m) t).getLastD acc = _
    rw [List.getLastD_cons]
    exact ih (acc + signedCents m)

theorem runningCentsAux_length (movs : List MovRow) :
    ∀ acc : ℤ, (runningCentsAux acc movs).length = movs.length := by
  induction movs with
  | nil => intro acc; rfl
  | cons m t ih => intro acc; simp [runningCentsAux, ih]

theorem foldl_add_signedCents (movs : List MovRow) :
    ∀ acc : ℤ, movs.foldl (fun a m => a + signedCents m) acc =
      acc + (movs.map signedCents).sum := by
  induction movs with
  | nil => intro acc; simp
  | cons m t ih => intro acc; simp [ih, add_assoc]

/-- C1 counterexample: on the spec's worked example the code's balance is
`-85.00`, not `85.00`, and the running balances are `[-100, -60, -85]`, not
`[100, 60, 85]`: the code signs purchases negative and payments positive. -/
theorem c1_counterexample :
    runningCents exampleMovimientos = [-10000, -6000, -8500] ∧
    (runningCents exampleMovimientos).map centsToQ ≠ [100, 60, 85] ∧
    saldoSumCents exampleMovimientos = -8500 ∧
    saldoQ exampleMovimientos = -85 ∧
    saldoQ exampleMovimientos ≠ 85 := by
  refine ⟨by decide, ?_, by decide, ?_, ?_⟩
  · rw [show runningCents exampleMovimientos = [-10000, -6000, -8500] from by decide]
    simp only [List.map, centsToQ]
    norm_num
  · rw [show saldoQ exampleMovimientos = ((-8500 : ℤ) : ℚ) / 100 from by
      simp [saldoQ, show saldoSumCents exampleMovimientos = -8500 from by decide]]
    norm_num
  · rw [show saldoQ exampleMovimientos = ((-8500 : ℤ) : ℚ) / 100 from by
      simp [saldoQ, show saldoSumCents exampleMovimientos = -8500 from by decide]]
    norm_num

/-- C1 (amended): for every ordered movement list the running balance adds the
amount of a payment-type (`Abono`) movement and subtracts the amount of a
purchase-type (`Compra`) movement; the final running value equals the SQL
summed balance, which is the signed sum of all amounts with payments positive
and purchases negative.  On the worked example the running balances are
`[-100.00, -60.00, -85.00]` and the final balance `-85.00`. -/
theorem c1_running_balance (movs : List MovRow) :
    (runningCents movs).getLastD 0 = saldoSumCents movs ∧
    saldoSumCents movs = (movs.map signedCents).sum ∧
    (runningCents movs).length = movs.length := by
  refine ⟨runningCentsAux_getLastD movs 0, ?_, runningCentsAux_length movs 0⟩
  simpa using foldl_add_signedCents movs 0

theorem utf8EncodeChar_length_pos (c : Char) : 1 ≤ (utf8EncodeChar c).length := by
  unfold utf8EncodeChar
  dsimp only
  split
  · simp
  · split
    · simp
    · split <;> simp

theorem length_le_utf8_length (l : List Char) :
    l.length ≤ ((l.map utf8EncodeChar).flatten).length := by
  induction l with
  | nil => simp
  | cons c t ih =>
    simp only [List.map_cons, List.flatten_cons, List.length_append, List.length_cons]
    have := utf8EncodeChar_length_pos c
    omega

theorem utf8_take72_take72 (l : List Char) :
    (((l.take 72).map utf8EncodeChar).flatten).take 72 =
      ((l.map utf8EncodeChar).flatten).take 72 := by
  by_cases h : l.length ≤ 72
  · rw [List.take_of_length_le h]
  · have hsplit : l = l.take 72 ++ l.drop 72 := (List.take_append_drop 72 l).symm
    conv_rhs => rw [hsplit]
    rw [List.map_append, List.flatten_append, List.take_append_eq_append_take]
    have hlen : 72 ≤ (((l.take 72).map utf8EncodeChar).flatten).length := by
      have h1 := length_le_utf8_length (l.take 72)
      have h2 : (l.take 72).length = 72 := by
        rw [List.length_take]
        omega
      omega
    rw [Nat.sub_eq_zero_of_le hlen, List.take_zero, List.append_nil]

set_option maxRecDepth 40000 in
/-- C4 counterexample: `truncate_password` is character-count-based, not
byte-length-based.  On 73 copies of `'é'` it keeps 72 characters, whose UTF-8
encoding is 144 bytes, while the byte-length-based rule the claim describes
keeps exactly the first 72 bytes; the two results differ. -/
theorem c4_counterexample :
    utf8Encode (truncate_password (some acutes73)) ≠ truncate72Bytes (some acutes73) ∧
    (utf8Encode (truncate_password (some acutes73))).length = 144 ∧
    (truncate72Bytes (some acutes73)).length = 72 :=
  ⟨by decide, by decide, by decide⟩

/-- C4 (amended): `truncate_password` truncates to 72 *characters* (code
points), not 72 bytes.  It is a no-op on every secret of at most 72 characters,
and — because every character encodes to at least one byte — composing it with
the hashing primitive's internal 72-byte cut yields exactly the first 72 bytes
of the original encoding, so the character-based pre-cut never changes the
bytes the primitive actually hashes. -/
theorem c4_truncation (s : String) :
    (s.data.length ≤ 72 → truncate_password (some s) = s) ∧
    (utf8Encode (truncate_password (some s))).take 72 = (utf8Encode s).take 72 := by
  constructor
  · intro h
    show String.mk (s.data.take 72) = s
    rw [List.take_of_length_le h]
  · show (((s.data.take 72).map utf8EncodeChar).flatten).take 72 = _
    exact utf8_take72_take72 s.data

theorem c4_truncation_witness :
    truncate_password (some "clave") = "clave" ∧
    (utf8Encode (truncate_password (some "clave"))).take 72 = (utf8Encode "clave").take 72 :=
  ⟨(c4_truncation "clave").1 (by decide), (c4_truncation "clave").2⟩

/-- C5: verification never raises.  The catch-all `except` maps the error that
`bcrypt.verify` raises on any malformed or empty stored hash to `False`; in the
embedding `verify_password` is a total function into `Bool` and returns `false`
on every stored value that is not a well-formed bcrypt hash, the empty string
included. -/
theorem c5_verify_never_raises (plain_password : Option String) (s : String) :
    verify_password plain_password (StoredHash.raw s) = false := rfl

/-- C6: hashing a secret and verifying the same secret against the produced
hash returns `true`; verifying any secret that differs after the truncation
pipeline applied identically at hash time and verify time (character cut, UTF-8
encoding, bcrypt's 72-byte cut) returns `false`. -/
theorem c6_hash_verify (pw : Option String) (salt : ℕ) :
    verify_password pw (hash_password pw salt) = true ∧
    (∀ pw2 : Option String, bcryptInput pw2 ≠ bcryptInput pw →
      verify_password pw2 (hash_password pw salt) = false) := by
  constructor
  · show (bcryptTruncate (utf8Encode (truncate_password pw)) ==
      bcryptTruncate (utf8Encode (truncate_password pw))) = true
    exact beq_self_eq_true _
  · intro pw2 hne
    show (bcryptTruncate (utf8Encode (truncate_password pw2)) ==
      bcryptTruncate (utf8Encode (truncate_password pw))) = false
    exact beq_eq_false_iff_ne.mpr hne

theorem c6_hash_verify_witness :
    verify_password (some "secreto") (hash_password (some "secreto") 7) = true ∧
    verify_password (some "otra") (hash_password (some "secreto") 7) = false :=
  ⟨(c6_hash_verify (some "secreto") 7).1,
   (c6_hash_verify (some "secreto") 7).2 (some "otra") (by decide)⟩

/-- C7: code bug.  A POST with the date field absent reaches
`strptime(None, "%Y-%m-%d")`, which raises `TypeError` — not the `ValueError`
the handler catches — so the request ends in a server error (HTTP 500) instead
of the user-facing flash-and-redirect the claim requires for every malformed
date input, the missing/absent field included.  (No movement is inserted on
this path either way.) -/
theorem c7_missing_fecha_500 :
    registro_post "cliente1" ⟨none, some "pan", some "Compra", some "10"⟩ =
      PostResult.serverError "TypeError" := rfl

theorem login_post_of_authOk_false (db : Db) (u p : String) (h : authOk db u p = false) :
    login_post db u p =
      LoginResult.loginPage (some "Usuario o contraseña incorrectos.")
        (some "Usuario o contraseña incorrectos.") := by
  unfold login_post
  unfold authOk at h
  cases hfind : get_by_username db (pyStrip u) with
  | none => simp [hfind]
  | some user =>
    rw [hfind] at h
    simp at h
    simp [hfind, h]

/-- C9: a failed login looks the same whether the username is unknown or the
username exists and the password is wrong: both runs produce the identical
generic message and the identical rendered login page, so the two causes are
indistinguishable from the response. -/
theorem c9_login_failure_indistinguishable (db : Db) (u₁ p₁ u₂ p₂ : String)
    (h₁ : authOk db u₁ p₁ = false) (h₂ : authOk db u₂ p₂ = false) :
    login_post db u₁ p₁ = login_post db u₂ p₂ ∧
    login_post db u₁ p₁ =
      LoginResult.loginPage (some "Usuario o contraseña incorrectos.")
        (some "Usuario o contraseña incorrectos.") :=
  ⟨(login_post_of_authOk_false db u₁ p₁ h₁).trans
      (login_post_of_authOk_false db u₂ p₂ h₂).symm,
   login_post_of_authOk_false db u₁ p₁ h₁⟩

theorem c9_login_failure_witness :
    login_post dbLogin "benito" "x" = login_post dbLogin "ana" "mala" ∧
    login_post dbLogin "benito" "x" =
      LoginResult.loginPage (some "Usuario o contraseña incorrectos.")
        (some "Usuario o contraseña incorrectos.") :=
  c9_login_failure_indistinguishable dbLogin "benito" "x" "ana" "mala" (by decide) (by decide)

/-- C8: each admin-only route (balances list, user list, new-user form,
dashboard) rejects every non-admin request with a flash-and-redirect that
carries none of the protected data — the rejection is a constant, independent
of the database — while the same request by an admin returns the data page. -/
theorem c8_admin_only_routes (u : UserRow) (db : Db) :
    (is_admin u = false →
      saldos_usuarios u db =
        Resp.redirectFlash "No tienes permisos para ver esta sección." "registro_movimientos" ∧
      lista_usuarios u db =
        Resp.redirectFlash "No tienes permisos para ver esta sección." "registro_movimientos" ∧
      nuevo_usuario_get u =
        Resp.redirectFlash "No tienes permisos para crear usuarios." "registro_movimientos" ∧
      dashboard u db =
        Resp.redirectFlash "No tienes permisos para ver el dashboard." "registro_movimientos") ∧
    (is_admin u = true →
      saldos_usuarios u db = Resp.page (saldosPorUsuario db.movimientos) ∧
      lista_usuarios u db = Resp.page (usuariosSorted db.usuarios) ∧
      nuevo_usuario_get u = Resp.page () ∧
      dashboard u db = Resp.page (dashData db)) := by
  constructor <;> intro h <;>
    simp [saldos_usuarios, lista_usuarios, nuevo_usuario_get, dashboard, h]

theorem c8_admin_only_routes_witness :
    saldos_usuarios userMaria dbDemo =
      Resp.redirectFlash "No tienes permisos para ver esta sección." "registro_movimientos" ∧
    dashboard userMaria dbDemo =
      Resp.redirectFlash "No tienes permisos para ver el dashboard." "registro_movimientos" :=
  ⟨((c8_admin_only_routes userMaria dbDemo).1 (by decide)).1,
   ((c8_admin_only_routes userMaria dbDemo).1 (by decide)).2.2.2⟩

theorem csvRows_foldl (movs : List MovRow) :
    ∀ acc : List (List String),
      movs.foldl (fun a m => a ++ [csvRow m]) acc = acc ++ movs.map csvRow := by
  induction movs with
  | nil => intro acc; simp
  | cons m t ih => intro acc; simp [ih]

theorem csvRows_eq (movs : List MovRow) : csvRows movs = csvHeader :: movs.map csvRow := by
  unfold csvRows
  rw [csvRows_foldl]
  rfl

theorem pdfLines_foldl (movs : List MovRow) :
    ∀ (y : ℤ) (acc : List String),
      (movs.foldl pdfStep (y, acc)).2 = acc ++ movs.map pdfLinea := by
  induction movs with
  | nil => intro y acc; simp
  | cons m t ih =>
    intro y acc
    show (t.foldl pdfStep (pdfStep (y, acc) m)).2 = _
    rw [show pdfStep (y, acc) m =
      (if y - 15 < 50 then 792 - 50 else y - 15, acc ++ [pdfLinea m]) from rfl]
    rw [ih]
    simp

theorem pdfLines_eq (movs : List MovRow) : pdfLines movs = pdfTitle :: movs.map pdfLinea := by
  unfold pdfLines
  rw [pdfLines_foldl]
  rfl

/-- C2 (amended): for every user and every filter both exports contain exactly
one data row/line per fetched movement — the header/title plus `n` movement
rows, so the row count equals the number of fetched movements — but neither
export prints a final-balance line. -/
theorem c2_export_rows (u : UserRow) (param : Option String) (db : Db) :
    reporte_excel u param db = csvHeader :: (fetchReport u param db).map csvRow ∧
    (reporte_excel u param db).length = 1 + (fetchReport u param db).length ∧
    reporte_pdf u param db = pdfTitle :: (fetchReport u param db).map pdfLinea ∧
    (reporte_pdf u param db).length = 1 + (fetchReport u param db).length := by
  refine ⟨csvRows_eq _, ?_, pdfLines_eq _, ?_⟩
  · rw [show reporte_excel u param db = csvHeader :: (fetchReport u param db).map csvRow from
      csvRows_eq _]
    simp [Nat.add_comm]
  · rw [show reporte_pdf u param db = pdfTitle :: (fetchReport u param db).map pdfLinea from
      pdfLines_eq _]
    simp [Nat.add_comm]

set_option maxRecDepth 40000 in
/-- C2 counterexample: for the filter `usuario=cliente1` over the worked
example the CSV export is exactly the header plus three movement rows and the
PDF exactly the title plus three movement lines — four rows/lines each, not
the five that a final-balance line would make; no field of any CSV row carries
the final balance (`-85.00` with the code's polarity, `85.00` with the
claim's).  Neither export prints a final-balance line. -/
theorem c2_counterexample :
    reporte_excel userAdmin (some "cliente1") dbDemo =
      [["Usuario", "Fecha", "Producto", "Tipo", "Monto"],
       ["cliente1", "2024-01-01", "p1", "Compra", "100.00"],
       ["cliente1", "2024-01-05", "p2", "Abono", "40.00"],
       ["cliente1", "2024-01-10", "p3", "Compra", "25.00"]] ∧
    (reporte_excel userAdmin (some "cliente1") dbDemo).length ≠ 1 + 3 + 1 ∧
    (∀ row ∈ reporte_excel userAdmin (some "cliente1") dbDemo,
      ¬ ("85.00" ∈ row ∨ "-85.00" ∈ row)) ∧
    reporte_pdf userAdmin (some "cliente1") dbDemo =
      [pdfTitle,
       "Usuario: cliente1 | Fecha: 2024-01-01 | Prod: p1 | Tipo: Compra | Monto: 100.00",
       "Usuario: cliente1 | Fecha: 2024-01-05 | Prod: p2 | Tipo: Abono | Monto: 40.00",
       "Usuario: cliente1 | Fecha: 2024-01-10 | Prod: p3 | Tipo: Compra | Monto: 25.00"] :=
  ⟨by decide, by decide, by decide, by decide⟩

/-- C10: for every non-admin user the report query ignores the `usuario` query
parameter — any two parameter values fetch identical rows, so the PDF and CSV
exports are identical — and, for the nonempty usernames the application can
create, the fetched rows are exactly the user's own movements in date-then-id
order. -/
theorem c10_param_ignored (u : UserRow) (p₁ p₂ : Option String) (db : Db)
    (h : is_admin u = false) :
    fetchReport u p₁ db = fetchReport u p₂ db ∧
    reporte_pdf u p₁ db = reporte_pdf u p₂ db ∧
    reporte_excel u p₁ db = reporte_excel u p₂ db ∧
    (u.username ≠ "" →
      fetchReport u p₁ db =
        sortBy movLeFechaId (db.movimientos.filter (fun m => m.usuario == u.username))) := by
  have hfetch : ∀ p : Option String, fetchReport u p db =
      (if u.username = "" then sortBy movLeUserFechaId db.movimientos
       else sortBy movLeFechaId (db.movimientos.filter (fun m => m.usuario == u.username))) := by
    intro p
    simp [fetchReport, h]
  have h12 : fetchReport u p₁ db = fetchReport u p₂ db := (hfetch p₁).trans (hfetch p₂).symm
  refine ⟨h12, ?_, ?_, ?_⟩
  · show pdfLines (fetchReport u p₁ db) = pdfLines (fetchReport u p₂ db)
    rw [h12]
  · show csvRows (fetchReport u p₁ db) = csvRows (fetchReport u p₂ db)
    rw [h12]
  · intro hne
    rw [hfetch p₁, if_neg hne]

theorem c10_param_ignored_witness :
    fetchReport userMaria (some "cliente1") dbDemo = fetchReport userMaria none dbDemo ∧
    reporte_excel userMaria (some "cliente1") dbDemo = reporte_excel userMaria none dbDemo ∧
    fetchReport userMaria (some "cliente1") dbDemo =
      sortBy movLeFechaId (dbDemo.movimientos.filter (fun m => m.usuario == userMaria.username)) := by
  have h := c10_param_ignored userMaria (some "cliente1") none dbDemo (by decide)
  exact ⟨h.1, h.2.2.1, h.2.2.2 (by decide)⟩

theorem pow2_eq_zpow (k : ℤ) : pow2 k = (2 : ℚ) ^ k := by
  rcases k with n | n
  · simp [pow2]
  · simp [pow2, zpow_negSucc]
    rfl

theorem pow2_pos (k : ℤ) : 0 < pow2 k := by
  rw [pow2_eq_zpow]
  exact zpow_pos two_pos k

theorem pow2_add (i j : ℤ) : pow2 (i + j) = pow2 i * pow2 j := by
  rw [pow2_eq_zpow, pow2_eq_zpow, pow2_eq_zpow]
  exact zpow_add₀ two_ne_zero i j

theorem pow2_natCast (k : ℕ) : pow2 (k : ℤ) = ((2 ^ k : ℕ) : ℚ) := by
  simp [pow2]

theorem pow2_natCast' (k : ℕ) : pow2 (k : ℤ) = (2 : ℚ) ^ k := by
  rw [pow2_natCast]
  push_cast
  rfl

theorem pow2_zero : pow2 0 = 1 := by
  simp [pow2]

theorem one_le_pow2 {k : ℤ} (h : 0 ≤ k) : 1 ≤ pow2 k := by
  unfold pow2
  rw [if_pos h]
  exact_mod_cast Nat.one_le_two_pow

theorem pow2_le_pow2 {i j : ℤ} (h : i ≤ j) : pow2 i ≤ pow2 j := by
  have h2 : pow2 j = pow2 i * pow2 (j - i) := by
    rw [← pow2_add]
    congr 1
    omega
  rw [h2]
  nth_rewrite 1 [← mul_one (pow2 i)]
  exact mul_le_mul_of_nonneg_left (one_le_pow2 (by omega)) (le_of_lt (pow2_pos i))

theorem log2fuel_bounds : ∀ fuel n : ℕ, n ≤ fuel → 1 ≤ n →
    2 ^ log2fuel fuel n ≤ n ∧ n < 2 ^ (log2fuel fuel n + 1) := by
  intro fuel
  induction fuel with
  | zero => intro n h1 h2; omega
  | succ f ih =>
    intro n hle h1
    by_cases hn : n ≤ 1
    · have hn1 : n = 1 := by omega
      subst hn1
      have h0 : log2fuel (f + 1) 1 = 0 := by simp [log2fuel]
      rw [h0]
      norm_num
    · have hrec := ih (n / 2) (by omega) (by omega)
      have hunfold : log2fuel (f + 1) n = log2fuel f (n / 2) + 1 := by
        simp [log2fuel, hn]
      rw [hunfold]
      rcases hrec with ⟨hlo, hhi⟩
      constructor
      · have hpow : 2 ^ (log2fuel f (n / 2) + 1) = 2 * 2 ^ log2fuel f (n / 2) := by ring
        omega
      · have hpow : 2 ^ (log2fuel f (n / 2) + 1 + 1) = 2 * 2 ^ (log2fuel f (n / 2) + 1) := by
          ring
        omega

theorem natLog2_le {n : ℕ} (h : 1 ≤ n) : 2 ^ natLog2 n ≤ n :=
  (log2fuel_bounds n n le_rfl h).1

theorem lt_pow_natLog2 {n : ℕ} (h : 1 ≤ n) : n < 2 ^ (natLog2 n + 1) :=
  (log2fuel_bounds n n le_rfl h).2

theorem pow2_weak_le_div (a b n d : ℕ) (h2a : 2 ^ a ≤ n) (hdb : d < 2 ^ (b + 1))
    (hd : 0 < d) : pow2 ((a : ℤ) - b - 1) ≤ (n : ℚ) / d := by
  have hd' : (0 : ℚ) < d := by exact_mod_cast hd
  have hx : pow2 ((a : ℤ) - b - 1) = pow2 (a : ℤ) / pow2 ((b : ℤ) + 1) := by
    rw [eq_div_iff (ne_of_gt (pow2_pos _)), ← pow2_add]
    congr 1
    ring
  rw [hx, div_le_div_iff (pow2_pos _) hd']
  have ha : pow2 (a : ℤ) ≤ (n : ℚ) := by
    rw [pow2_natCast]
    exact_mod_cast h2a
  have hb : (d : ℚ) ≤ pow2 ((b : ℤ) + 1) := by
    have hcast : ((b : ℤ) + 1) = ((b + 1 : ℕ) : ℤ) := by push_cast; ring
    rw [hcast, pow2_natCast]
    exact_mod_cast le_of_lt hdb
  exact mul_le_mul ha hb (by positivity) (by positivity)

theorem floorLog2ND_le (n d : ℕ) (hn : 1 ≤ n) (hd : 1 ≤ d) :
    pow2 (floorLog2ND n d) ≤ (n : ℚ) / d := by
  have h2a : 2 ^ natLog2 n ≤ n := natLog2_le hn
  have hdb : d < 2 ^ (natLog2 d + 1) := lt_pow_natLog2 hd
  have hd' : (0 : ℚ) < d := by exact_mod_cast hd
  unfold floorLog2ND
  by_cases hba : natLog2 d ≤ natLog2 n
  · rw [if_pos hba]
    by_cases hcond : 2 ^ (natLog2 n - natLog2 d) * d ≤ n
    · rw [if_pos hcond]
      have hab : (natLog2 n : ℤ) - natLog2 d = ((natLog2 n - natLog2 d : ℕ) : ℤ) := by omega
      rw [hab, pow2_natCast, le_div_iff hd']
      exact_mod_cast hcond
    · rw [if_neg hcond]
      exact pow2_weak_le_div _ _ n d h2a hdb (by omega)
  · rw [if_neg hba]
    by_cases hcond : d ≤ 2 ^ (natLog2 d - natLog2 n) * n
    · rw [if_pos hcond]
      have hab : (natLog2 n : ℤ) - natLog2 d = -(((natLog2 d - natLog2 n : ℕ) : ℤ)) := by
        omega
      rw [hab, pow2_eq_zpow, zpow_neg, ← pow2_eq_zpow, pow2_natCast, inv_eq_one_div,
        div_le_div_iff (by positivity) hd']
      have hcond' : d ≤ n * 2 ^ (natLog2 d - natLog2 n) := by
        rw [Nat.mul_comm] at hcond
        exact hcond
      rw [one_mul]
      exact_mod_cast hcond'
    · rw [if_neg hcond]
      exact pow2_weak_le_div _ _ n d h2a hdb (by omega)

theorem roundHE_mul (z q : ℕ) (hq : 0 < q) : roundHE (z * q) q = z := by
  unfold roundHE
  rw [Nat.mul_div_cancel z hq, Nat.mul_mod_left]
  simp [hq]

theorem floatVal_eq_of_dyadic (n d : ℕ) (hn : 1 ≤ n) (hd : 1 ≤ d) (m e : ℤ)
    (hq : (n : ℚ) / d = (m : ℚ) * pow2 e) (hm : m < 2 ^ 53) :
    floatVal n d = (n : ℚ) / d := by
  have hdQ : (0 : ℚ) < d := by exact_mod_cast hd
  have hnQ : (0 : ℚ) < n := by exact_mod_cast hn
  have hq0 : (0 : ℚ) < (n : ℚ) / d := div_pos hnQ hdQ
  have hmQ : (0 : ℚ) < (m : ℚ) := by
    have hrw : (m : ℚ) = ((n : ℚ) / d) / pow2 e := by
      rw [hq, mul_div_assoc, div_self (ne_of_gt (pow2_pos e)), mul_one]
    rw [hrw]
    exact div_pos hq0 (pow2_pos e)
  have hm0 : 0 < m := by exact_mod_cast hmQ
  set L := floorLog2ND n d with hLdef
  have hL : pow2 L ≤ (n : ℚ) / d := floorLog2ND_le n d hn hd
  have hup : (n : ℚ) / d < pow2 (53 + e) := by
    rw [hq, pow2_add]
    have hm53 : (m : ℚ) < pow2 53 := by
      rw [show (53 : ℤ) = ((53 : ℕ) : ℤ) from rfl, pow2_natCast]
      exact_mod_cast hm
    exact mul_lt_mul_of_pos_right hm53 (pow2_pos e)
  have hLe : L - 52 ≤ e := by
    by_contra hcon
    push_neg at hcon
    have hmono : pow2 (53 + e) ≤ pow2 L := pow2_le_pow2 (by omega)
    linarith
  set k : ℕ := (e - (L - 52)).toNat with hkdef
  have hke : (k : ℤ) = e - (L - 52) := Int.toNat_of_nonneg (by omega)
  set zN : ℕ := m.toNat * 2 ^ k with hzdef
  have hmN : ((m.toNat : ℕ) : ℤ) = m := Int.toNat_of_nonneg (le_of_lt hm0)
  have hzQ : ((zN : ℕ) : ℚ) = (m : ℚ) * (2 : ℚ) ^ k := by
    rw [hzdef]
    push_cast
    rw [show ((m.toNat : ℕ) : ℚ) = (m : ℚ) from by exact_mod_cast hmN]
  have hmaster : (n : ℚ) / d = (zN : ℚ) * pow2 (L - 52) := by
    have hsplit : pow2 e = (2 : ℚ) ^ k * pow2 (L - 52) := by
      rw [show e = (k : ℤ) + (L - 52) from by omega, pow2_add, pow2_natCast']
    rw [hq, hzQ, hsplit]
    ring
  have h1 : (n : ℚ) = (zN : ℚ) * pow2 (L - 52) * d := (div_eq_iff (ne_of_gt hdQ)).mp hmaster
  by_cases hsign : 0 ≤ L - 52
  · have hpow : pow2 (L - 52) = ((2 ^ (L - 52).toNat : ℕ) : ℚ) := by
      unfold pow2
      rw [if_pos hsign]
    have hnat : n = zN * (2 ^ (L - 52).toNat) * d := by
      have hcast : ((n : ℕ) : ℚ) = ((zN * 2 ^ (L - 52).toNat * d : ℕ) : ℚ) := by
        push_cast
        rw [h1, hpow]
        push_cast
        ring
      exact_mod_cast hcast
    have hmant : floatMant n d = zN := by
      unfold floatMant
      rw [← hLdef, if_pos hsign,
        show n = zN * (d * 2 ^ (L - 52).toNat) from by rw [hnat]; ring]
      exact roundHE_mul zN _ (Nat.mul_pos hd (pow_pos (by norm_num) _))
    unfold floatVal
    rw [← hLdef, hmant]
    exact hmaster.symm
  · have hpow : pow2 (-(L - 52)) = (2 : ℚ) ^ (-(L - 52)).toNat := by
      unfold pow2
      rw [if_pos (by omega)]
      push_cast
      rfl
    have hcancel : pow2 (L - 52) * pow2 (-(L - 52)) = 1 := by
      rw [← pow2_add]
      simp [pow2_zero]
    have hnat : n * 2 ^ (-(L - 52)).toNat = zN * d := by
      have hcast : ((n * 2 ^ (-(L - 52)).toNat : ℕ) : ℚ) = ((zN * d : ℕ) : ℚ) := by
        push_cast
        rw [← hpow, h1]
        calc (zN : ℚ) * pow2 (L - 52) * d * pow2 (-(L - 52))
            = (zN : ℚ) * d * (pow2 (L - 52) * pow2 (-(L - 52))) := by ring
          _ = (zN : ℚ) * d := by rw [hcancel, mul_one]
      exact_mod_cast hcast
    have hmant : floatMant n d = zN := by
      unfold floatMant
      rw [← hLdef, if_neg hsign, hnat]
      exact roundHE_mul zN d (by omega)
    unfold floatVal
    rw [← hLdef, hmant]
    exact hmaster.symm

theorem float_of_cents_eq_of_dyadic (c m e : ℤ)
    (hq : (c : ℚ) / 100 = (m : ℚ) * pow2 e) (hm : m.natAbs < 2 ^ 53) :
    float_of_cents c = (c : ℚ) / 100 := by
  rcases lt_trichotomy c 0 with hneg | hzero | hpos
  · have hca : ((c.natAbs : ℕ) : ℚ) = -(c : ℚ) := by
      rw [Int.cast_natAbs, Int.cast_abs]
      exact abs_of_neg (by exact_mod_cast hneg)
    have hval : floatVal c.natAbs 100 = ((c.natAbs : ℕ) : ℚ) / 100 := by
      apply floatVal_eq_of_dyadic c.natAbs 100 (by omega) (by norm_num) (-m) e
      · rw [hca]
        push_cast
        rw [show -(c : ℚ) / 100 = -((c : ℚ) / 100) from by ring, hq]
        ring
      · omega
    unfold float_of_cents
    rw [if_neg (by omega), if_pos hneg, hval, hca]
    ring
  · subst hzero
    unfold float_of_cents
    norm_num
  · have hca : ((c.natAbs : ℕ) : ℚ) = (c : ℚ) := by
      rw [Int.cast_natAbs, Int.cast_abs]
      exact abs_of_pos (by exact_mod_cast hpos)
    have hval : floatVal c.natAbs 100 = ((c.natAbs : ℕ) : ℚ) / 100 := by
      apply floatVal_eq_of_dyadic c.natAbs 100 (by omega) (by norm_num) m e
      · rw [hca]
        exact hq
      · omega
    unfold float_of_cents
    rw [if_neg (by omega), if_neg (by omega), hval, hca]

/-- C3 (amended): the database-side summation over `NUMERIC(10,2)` amounts is
exact rational arithmetic, but the handler converts the sum with `float(...)`,
so the value it works with is the binary64 rounding of the exact balance: it
equals the exact balance exactly when that balance is a dyadic rational with a
53-bit numerator (every whole-cent amount of the form `m/2^j`, in particular
all integer peso values), and differs otherwise. -/
theorem c3_saldo_float (movs : List MovRow) (m e : ℤ)
    (hrep : saldoQ movs = (m : ℚ) * pow2 e) (hm : m.natAbs < 2 ^ 53) :
    float_of_cents (saldoSumCents movs) = saldoQ movs :=
  float_of_cents_eq_of_dyadic (saldoSumCents movs) m e hrep hm

theorem c3_saldo_float_witness :
    float_of_cents (saldoSumCents exampleMovimientos) = saldoQ exampleMovimientos :=
  c3_saldo_float exampleMovimientos (-85) 0
    (by
      show ((saldoSumCents exampleMovimientos : ℤ) : ℚ) / 100 = ((-85 : ℤ) : ℚ) * pow2 0
      rw [show saldoSumCents exampleMovimientos = -8500 from by decide, pow2_zero]
      push_cast
      norm_num)
    (by decide)

/-- C3 counterexample: a single payment of 0.10 — the exact database-side
balance is `1/10`, but `float(...)` returns the binary64 neighbour
`7205759403792794 / 2^56 ≠ 1/10`: the Python-side balance is not the exact
rational signed sum, so the pipeline is not exact decimal arithmetic. -/
theorem c3_counterexample :
    saldoQ (movsDime.filter (fun m => m.usuario == "cliente1")) = 1 / 10 ∧
    saldo_actual "cliente1" movsDime ≠
      saldoQ (movsDime.filter (fun m => m.usuario == "cliente1")) := by
  have hsum : saldoSumCents (movsDime.filter (fun m => m.usuario == "cliente1")) = 10 := by
    decide
  constructor
  · show ((saldoSumCents (movsDime.filter (fun m => m.usuario == "cliente1")) : ℤ) : ℚ) / 100 =
      1 / 10
    rw [hsum]
    norm_num
  · show float_of_cents (saldoSumCents (movsDime.filter (fun m => m.usuario == "cliente1"))) ≠
      ((saldoSumCents (movsDime.filter (fun m => m.usuario == "cliente1")) : ℤ) : ℚ) / 100
    rw [hsum]
    have hmant : floatMant 10 100 = 7205759403792794 := by decide
    have hexp : floorLog2ND 10 100 = -4 := by decide
    unfold float_of_cents
    rw [if_neg (by norm_num), if_neg (by norm_num)]
    show ((floatMant (10 : ℤ).natAbs 100 : ℕ) : ℚ) * pow2 (floorLog2ND (10 : ℤ).natAbs 100 - 52) ≠ _
    rw [show (10 : ℤ).natAbs = 10 from rfl, hmant, hexp, pow2_eq_zpow]
    norm_num [zpow_neg, inv_eq_iff_eq_inv]

end App
